import Mathlib

/-!
# Verification of the `time_me` micro-benchmarking harness (`time_me/coach.py`)

A shallow embedding of the measurement-and-comparison engine:

* `PyVal` — the universe of Python values the engine manipulates
  (ints, floats-as-rationals, strings-as-char-lists, lists, tuples,
  dicts-as-insertion-ordered-association-lists, dict item views, `None`);
* `pyEq` — Python `==` on that universe;
* `parse_argset` — Argument Set normalization;
* `sane` — the recursive tolerant equality used by the sanity check
  (fuel-indexed, since the Python original can recurse unboundedly);
* `Result`, `CoachState`, `coachCall`, `compare`, `trialCall` — the
  Orchestrator (`Coach`) pipeline;
* `timeLimitRun` / `argCoachYields` — the two repetition policies
  (`TimeLimitCoach`, `ArgCoach`) interleaved with the measurement loop.

Durations are modelled as exact rationals.  The Clock Accumulator
(`timer.py`) and the Invocation Wrapper (`runner.py`) are not part of the
visible source; where their behaviour matters it is modelled from the
spec, as noted on the individual definitions.
-/

/-- The universe of Python values handled by the engine.  Floats are
modelled as exact rationals, strings as lists of characters, dicts as
insertion-ordered association lists, and `items` is the `dict_items`
view (a list of key/value pairs rendered as 2-tuples). -/
inductive PyVal where
  | int : Int → PyVal
  | float : ℚ → PyVal
  | str : List Char → PyVal
  | list : List PyVal → PyVal
  | tuple : List PyVal → PyVal
  | dict : List (PyVal × PyVal) → PyVal
  | items : List PyVal → PyVal
  | none : PyVal
deriving Repr

/-- `isinstance(v, (float, int))`. -/
def isNum : PyVal → Bool
  | .int _ => true
  | .float _ => true
  | _ => false

/-- `isinstance(v, Mapping)`: only dicts are mappings. -/
def isMapping : PyVal → Bool
  | .dict _ => true
  | _ => false

/-- `isinstance(v, Iterable)`: strings, lists, tuples, dicts and dict
views are iterable; numbers and `None` are not.  Note a `Mapping` is in
particular `Iterable`. -/
def isIterable : PyVal → Bool
  | .str _ => true
  | .list _ => true
  | .tuple _ => true
  | .dict _ => true
  | .items _ => true
  | _ => false

/-- `isinstance(v, tuple)`. -/
def isTuple : PyVal → Bool
  | .tuple _ => true
  | _ => false

/-- `isinstance(v, dict)`. -/
def isDict : PyVal → Bool
  | .dict _ => true
  | _ => false

/-- Numeric value of an `int`/`float` (meaningful under `isNum`). -/
def toNum : PyVal → ℚ
  | .int n => (n : ℚ)
  | .float q => q
  | _ => 0

mutual

/-- Python `==` on `PyVal`.  Numbers compare across `int`/`float` by
value; lists/tuples compare element-wise against the same kind only;
dicts compare as unordered key/value collections; `dict_items` views
compare set-like.  Distinct kinds (other than `int`/`float`) are never
equal. -/
def pyEq : PyVal → PyVal → Bool
  | .int m, .int n => m == n
  | .int m, .float q => ((m : ℚ) == q)
  | .float q, .int n => (q == (n : ℚ))
  | .float p, .float q => p == q
  | .str s, .str t => s == t
  | .none, .none => true
  | .list xs, .list ys => pyEqList xs ys
  | .tuple xs, .tuple ys => pyEqList xs ys
  | .dict xs, .dict ys => xs.length == ys.length && pyDictLe xs ys
  | .items xs, .items ys => xs.length == ys.length && pyAllMem xs ys
  | _, _ => false
termination_by a b => sizeOf a + sizeOf b
decreasing_by all_goals (simp_wf <;> omega)

/-- Element-wise `==` of two Python sequences. -/
def pyEqList : List PyVal → List PyVal → Bool
  | [], [] => true
  | x :: xs, y :: ys => pyEq x y && pyEqList xs ys
  | _, _ => false
termination_by xs ys => sizeOf xs + sizeOf ys
decreasing_by all_goals (simp_wf <;> omega)

/-- Every pair of the first association list has an `==`-matching pair
in the second (dict `<=` on key/value pairs). -/
def pyDictLe : List (PyVal × PyVal) → List (PyVal × PyVal) → Bool
  | [], _ => true
  | (k, v) :: xs, ys => pyDictMemPair k v ys && pyDictLe xs ys
termination_by xs ys => sizeOf xs + sizeOf ys
decreasing_by all_goals (simp_wf <;> omega)

/-- Some pair of the association list `==`-matches `(k, v)`. -/
def pyDictMemPair : PyVal → PyVal → List (PyVal × PyVal) → Bool
  | _, _, [] => false
  | k, v, (k2, v2) :: ys => (pyEq k k2 && pyEq v v2) || pyDictMemPair k v ys
termination_by k v ys => sizeOf k + sizeOf v + sizeOf ys
decreasing_by all_goals (simp_wf <;> omega)

/-- Every element of the first list has an `==`-matching element in the
second (set-like comparison of `dict_items` views). -/
def pyAllMem : List PyVal → List PyVal → Bool
  | [], _ => true
  | x :: xs, ys => pyMem x ys && pyAllMem xs ys
termination_by xs ys => sizeOf xs + sizeOf ys
decreasing_by all_goals (simp_wf <;> omega)

/-- Python `in`: some element of the list `==`-matches `x`. -/
def pyMem : PyVal → List PyVal → Bool
  | _, [] => false
  | x, y :: ys => pyEq x y || pyMem x ys
termination_by x ys => sizeOf x + sizeOf ys
decreasing_by all_goals (simp_wf <;> omega)

end

/-- `parse_argset` (`coach.py`): an explicit `(tuple, dict)` pair is
returned as-is; otherwise any iterable becomes `(a, {})`; the
`Mapping` branch `((), a)` follows the iterable test; anything else is
a `TypeError` (modelled as `.error a`). -/
def parse_argset (a : PyVal) : Except PyVal (PyVal × PyVal) :=
  match a with
  | .tuple [PyVal.tuple p, PyVal.dict k] => .ok (.tuple p, .dict k)
  | _ =>
    if isIterable a then .ok (a, .dict [])
    else if isMapping a then .ok (.tuple [], a)
    else .error a

/-- The default relative tolerance of `math.isclose` (`1e-09`); the code
calls `isclose(actual, expected, abs_tol=self._sanity_tol)` and leaves
`rel_tol` at its default. -/
def pyRelTol : ℚ := 1 / 10 ^ 9

/-- `math.isclose(a, b, rel_tol=relTol, abs_tol=absTol)`:
`abs(a-b) <= max(relTol * max(abs(a), abs(b)), absTol)`. -/
def isclosePy (relTol absTol a b : ℚ) : Bool :=
  decide (|a - b| ≤ max (relTol * max |a| |b|) absTol)

/-- `iter(v)` for each iterable kind: a string yields its characters as
one-character strings, a list/tuple its elements, a dict its keys (in
insertion order), an items view its pair-tuples. -/
def pyElems : PyVal → List PyVal
  | .str cs => cs.map fun c => .str [c]
  | .list xs => xs
  | .tuple xs => xs
  | .dict xs => xs.map Prod.fst
  | .items xs => xs
  | _ => []

/-- `d.items()`: the `dict_items` view, whose elements are `(key, value)`
tuples in insertion order. -/
def itemsView : PyVal → PyVal
  | .dict xs => .items (xs.map fun p => .tuple [p.1, p.2])
  | _ => .items []

/-- Discriminant of the concrete Python type of a value (`type(v)`). -/
def pyKind : PyVal → ℕ
  | .int _ => 0
  | .float _ => 1
  | .str _ => 2
  | .list _ => 3
  | .tuple _ => 4
  | .dict _ => 5
  | .items _ => 6
  | .none => 7

/-- `type(a) == type(b)`. -/
def sameKind (a b : PyVal) : Bool :=
  pyKind a == pyKind b

mutual

/-- `Coach.sane` (`coach.py`): exact `==` short-circuits true; then the
numeric `isclose` test with absolute tolerance `tol`; then, for two
mappings, recursion on their items views (falling through to the next
test when that recursion returns false); then, for two iterables of the
same concrete type, the element-wise while loop; otherwise false.

The Python function recurses without bound on some inputs (a
one-character string's sole element is the string itself), so the model
is indexed by remaining recursion depth (`fuel`); `Option.none` means
the call at that depth did not complete (`RecursionError`). -/
def sane (tol : ℚ) : ℕ → PyVal → PyVal → Option Bool
  | 0, _, _ => Option.none
  | fuel + 1, e, a =>
    if pyEq e a then some true
    else if isNum a && isNum e && isclosePy pyRelTol tol (toNum a) (toNum e) then some true
    else
      match (if isMapping a && isMapping e then
               sane tol fuel (itemsView e) (itemsView a)
             else some false) with
      | Option.none => Option.none
      | some true => some true
      | some false =>
        if isIterable a && isIterable e && sameKind e a then
          saneList tol fuel (pyElems e) (pyElems a)
        else some false
termination_by fuel _ _ => (fuel, 0)

/-- The while loop inside `Coach.sane`: advance both iterators in
lockstep; both exhausted at once means true; one exhausted first, or a
non-"sane" element pair, means false. -/
def saneList (tol : ℚ) : ℕ → List PyVal → List PyVal → Option Bool
  | _, [], [] => some true
  | _, [], _ :: _ => some false
  | _, _ :: _, [] => some false
  | fuel, x :: xs, y :: ys =>
    match sane tol fuel x y with
    | Option.none => Option.none
    | some false => some false
    | some true => saneList tol fuel xs ys
termination_by fuel xs _ => (fuel, sizeOf xs + 1)

end

/-- `Coach.sane` never returns on these two arguments at any recursion
depth: the Python call raises `RecursionError`. -/
def saneDiverges (tol : ℚ) (e a : PyVal) : Prop :=
  ∀ fuel, sane tol fuel e a = Option.none

/-- The default sanity tolerance of `Coach.__init__` (`sanity_tol=1e-7`). -/
def sanity_tol_default : ℚ := 1 / 10 ^ 7

/-- `Coach.Result`: the Outcome record.  `total_time` and `n` are the
stored fields; `runnerId` stands for the stored reference to the owning
wrapper; `rid` is the Python object identity of the `Result` itself
(`Result` defines no `__eq__`, so `==` on Outcomes is identity). -/
structure Result where
  rid : ℕ
  runnerId : ℕ
  total_time : ℚ
  n : ℕ
deriving Repr, DecidableEq

/-- `Result.__float__`: mean per-call duration `total_time / n`. -/
def resultFloat (r : Result) : ℚ :=
  r.total_time / (r.n : ℚ)

/-- `Result.__lt__`: `float(self) < float(other)`. -/
def resultLt (a b : Result) : Bool :=
  decide (resultFloat a < resultFloat b)

/-- `Result.__le__`: `float(self) <= float(other)`. -/
def resultLe (a b : Result) : Bool :=
  decide (resultFloat a ≤ resultFloat b)

/-- `Result.__truediv__`: `float(self) / float(other)`. -/
def resultDiv (a b : Result) : ℚ :=
  resultFloat a / resultFloat b

/-- Python `==` on Outcomes: `Result` defines no `__eq__`, so the
default `object.__eq__` (identity) applies. -/
def resultPyEq (a b : Result) : Bool :=
  a.rid == b.rid

/-- Python `in` over a list of Outcomes (as in `result not in comparisons`
inside `ResultComparison.bar` and in the measured-set): membership is
decided by `==`, hence by identity. -/
def resultMem (x : Result) (l : List Result) : Bool :=
  l.any fun y => resultPyEq x y

/-- The inner `for cmp in comparisons` loop of `ResultComparison.bar`
(`coach.py`) for one bar: the reference Outcomes against which a ratio
annotation is rendered.  `comparisons` is the two-slot cache
`[self[0], previous]`; a slot is skipped when it is `None`
(`not cmp` — a `Result` itself is always truthy), when `cmp <= 0`
(`Result.__le__` against `float(0) = 0.0`, i.e. mean `<= 0`), or when
`cmp == result` (identity, `Result` defining no `__eq__`). -/
def barRefs (c0 : Result) (c1 : Option Result) (result : Result) : List Result :=
  (if decide (resultFloat c0 ≤ 0) || resultPyEq c0 result then [] else [c0]) ++
  (match c1 with
   | Option.none => []
   | some cmp =>
     if decide (resultFloat cmp ≤ 0) || resultPyEq cmp result then [] else [cmp])

/-- The `if result not in comparisons: comparisons[-1] = result` update
of `ResultComparison.bar`: membership is by `==`, hence by identity, so
the second cache slot is replaced unless the current Outcome *is* one of
the cached objects. -/
def barUpdate (c0 : Result) (c1 : Option Result) (result : Result) : Option Result :=
  if resultPyEq result c0 ||
      (match c1 with | Option.none => false | some c => resultPyEq result c) then c1
  else some result

/-- The `for i, result in enumerate(self)` loop of
`ResultComparison.bar`, threading the mutable `comparisons[-1]` slot:
per bar, the list of reference Outcomes it is annotated against. -/
def barAnnotate (c0 : Result) : Option Result → List Result → List (List Result)
  | _, [] => []
  | c1, r :: rest => barRefs c0 c1 r :: barAnnotate c0 (barUpdate c0 c1 r) rest

/-- `ResultComparison.bar`'s annotation pass over the sorted Outcome
list: `comparisons` starts as `[self[0], None]`. -/
def barPass (l : List Result) : List (List Result) :=
  match l with
  | [] => []
  | r0 :: _ => barAnnotate r0 Option.none l

/-- The Invocation Wrapper.  Modelled from the spec: `runner.py` is not
among the visible sources.  Per spec §4.2 a wrapper is callable with the
Argument Set, and carries a `__results__` mapping from Orchestrator
identity to the cached Outcome, filled in by `assign_result`.  `run`
gives the returned value on `(positional-tuple, keyword-dict)`; `dur`
is the wall-clock duration one invocation takes (the Clock Accumulator
accrues exactly this much per resume window, spec §4.1). -/
structure Runner where
  runnerId : ℕ
  run : PyVal → PyVal → PyVal
  dur : ℚ
  results : List (ℕ × Result)

/-- The Orchestrator's own state: construction parameters
(`sanity_argsets` as an insertion-ordered mapping, `sanity_tol`) and the
`_measured` set.  `coachId` is the Orchestrator's Python identity (the
key under which wrappers cache Outcomes); `nextResultId` supplies fresh
object identities for new `Result`s. -/
structure CoachState where
  sanity_argsets : List (PyVal × PyVal)
  sanity_tol : ℚ
  measured : List Result
  coachId : ℕ
  nextResultId : ℕ

/-- Errors the pipeline can raise. -/
inductive CallErr where
  | typeErr (a : PyVal)
  | recursionErr
  | sanityFail (expected actual : PyVal)
  | missingPositional (i : Int)
  | missingKeyword (k : List Char)
deriving Repr

/-- The sanity loop of `Coach.__call__`: for each fixture in order,
normalize the Argument Set, invoke the candidate, and test the actual
result against the expected value with `sane`; the first failure raises
`ValueError(f'{expected} vs {actual}')` (modelled as `.sanityFail
expected actual`). -/
def runSanity (tol : ℚ) (fuel : ℕ) (run : PyVal → PyVal → PyVal) :
    List (PyVal × PyVal) → Except CallErr Unit
  | [] => .ok ()
  | (sa, expected) :: rest =>
    match parse_argset sa with
    | .error v => .error (.typeErr v)
    | .ok (a, k) =>
      match sane tol fuel expected (run a k) with
      | Option.none => .error .recursionErr
      | some false => .error (.sanityFail expected (run a k))
      | some true => runSanity tol fuel run rest

/-- `Coach.__call__` with the base repetition policy (`iter_argsets`
yields exactly one empty Argument Set): run the sanity loop; only on
success create the Clock Accumulator, run the measurement loop (one
resume window of `r.dur` per yielded Argument Set), build the `Result`,
attach it to the wrapper (`assign_result`, modelled from the spec) and
add it to the measured-set.  The trailing `ℕ` counts the timer windows
opened; an error leaves the state untouched with zero windows. -/
def coachCall (st : CoachState) (r : Runner) (fuel : ℕ) :
    Except CallErr (Result × Runner) × CoachState × ℕ :=
  match runSanity st.sanity_tol fuel r.run st.sanity_argsets with
  | .error e => (.error e, st, 0)
  | .ok _ =>
    let ret : Result := ⟨st.nextResultId, r.runnerId, r.dur, 1⟩
    let r2 : Runner := { r with results := (st.coachId, ret) :: r.results }
    let st2 : CoachState :=
      { st with measured := st.measured ++ [ret], nextResultId := st.nextResultId + 1 }
    (.ok (ret, r2), st2, 1)

/-- `self in o.__results__` / `o.__results__[self]`: look up the cached
Outcome for the given Orchestrator identity. -/
def lookupResult (cid : ℕ) : List (ℕ × Result) → Option Result
  | [] => Option.none
  | (c, r) :: rest => if c == cid then some r else lookupResult cid rest

/-- A candidate passed to `Coach.compare`: either already an Outcome, or
an Invocation Wrapper. -/
inductive CompareArg where
  | result (r : Result)
  | runner (r : Runner)

/-- The per-candidate branch of `Coach.compare`: an Outcome as-is; a
wrapper whose `__results__` contains this Orchestrator yields the cached
Outcome; anything else goes through the full `__call__` pipeline. -/
def resolveOne (fuel : ℕ) (st : CoachState) : CompareArg → Except CallErr (Result × CoachState)
  | .result r => .ok (r, st)
  | .runner rn =>
    match lookupResult st.coachId rn.results with
    | some res => .ok (res, st)
    | Option.none =>
      match coachCall st rn fuel with
      | (.ok (res, _), st2, _) => .ok (res, st2)
      | (.error e, _, _) => .error e

/-- The accumulation loop of `Coach.compare` over the candidate list. -/
def resolveAll (fuel : ℕ) : CoachState → List CompareArg → Except CallErr (List Result × CoachState)
  | st, [] => .ok ([], st)
  | st, o :: rest =>
    match resolveOne fuel st o with
    | .error e => .error e
    | .ok (r, st2) =>
      match resolveAll fuel st2 rest with
      | .error e => .error e
      | .ok (rs, st3) => .ok (r :: rs, st3)

/-- `Coach.compare(*objs)`: with no candidates, use the measured-set;
resolve every candidate, then return `ResultComparison(sorted(results))`.
Python's stable sort consumes `__lt__` only; it is modelled by
`mergeSort` with the complement relation `not (b < a)`. -/
def coachCompare (fuel : ℕ) (st : CoachState) (objs : List CompareArg) :
    Except CallErr (List Result × CoachState) :=
  let objs2 := if objs.isEmpty then st.measured.map CompareArg.result else objs
  match resolveAll fuel st objs2 with
  | .error e => .error e
  | .ok (rs, st2) => .ok (rs.mergeSort fun a b => ! resultLt b a, st2)

/-- `TimeLimitCoach.iter_argsets` interleaved with the measurement loop
of `Coach.__call__`: while the Clock Accumulator's total is below the
time limit, run one more repetition (one resume window adding `d`
seconds and one increment of the call counter).  The Python loop is a
`while`; the model spends one unit of `fuel` per cycle and returns
`Option.none` when the loop has not finished within the given fuel. -/
def timeLimitRun (limit d : ℚ) : ℕ → ℚ → ℕ → Option (ℚ × ℕ)
  | 0, _, _ => Option.none
  | fuel + 1, total, n =>
    if total < limit then timeLimitRun limit d fuel (total + d) (n + 1)
    else some (total, n)

/-- `TimeLimitCoach.__call__` after a successful sanity check, for a
candidate whose every invocation takes `d` seconds: the produced
Outcome, if the loop finishes within `fuel` cycles. -/
def timeLimitCoachCall (limit d : ℚ) (fuel rid nid : ℕ) : Option Result :=
  (timeLimitRun limit d fuel 0 0).map fun tn => ⟨nid, rid, tn.1, tn.2⟩

/-- One pass of `ArgCoach.iter_argsets` over the configured Argument Set
sequence, normalizing each with `parse_argset` (whose `TypeError`
propagates). -/
def argsetsPass : List PyVal → Except PyVal (List (PyVal × PyVal))
  | [] => .ok []
  | a :: rest =>
    match parse_argset a with
    | .error e => .error e
    | .ok p =>
      match argsetsPass rest with
      | .error e => .error e
      | .ok ps => .ok (p :: ps)

/-- `ArgCoach.iter_argsets`: `for _ in range(n): for argset in
self.argsets: yield parse_argset(argset)` — the full sequence of
Argument Sets yielded to the measurement loop. -/
def argCoachYields : ℕ → List PyVal → Except PyVal (List (PyVal × PyVal))
  | 0, _ => .ok []
  | n + 1, argsets =>
    match argsetsPass argsets with
    | .error e => .error e
    | .ok ps =>
      match argCoachYields n argsets with
      | .error e => .error e
      | .ok rest => .ok (ps ++ rest)

/-- `ArgCoach.__call__` after a successful sanity check, for a candidate
whose every invocation takes `d` seconds: one resume window per yielded
Argument Set, so `n` is the number of yields and the total is `n * d`. -/
def argCoachCall (reps : ℕ) (argsets : List PyVal) (d : ℚ) (rid nid : ℕ) :
    Except PyVal Result :=
  match argCoachYields reps argsets with
  | .error e => .error e
  | .ok l => .ok ⟨nid, rid, l.length * d, l.length⟩

/-- `Coach.trial`'s `obj_key`: a positional index or a keyword name. -/
inductive TrialKey where
  | pos (i : Int)
  | kw (k : List Char)

/-- `obj_key in kwargs` / `kwargs[obj_key]`. -/
def lookupKw (k : List Char) : List (List Char × PyVal) → Option PyVal
  | [] => Option.none
  | (k2, v) :: rest => if k2 == k then some v else lookupKw k rest

/-- `args[obj_key]` with Python indexing (negative indices wrap). -/
def pyIndex (l : List PyVal) (i : Int) : PyVal :=
  if i < 0 then l.getD (l.length + i).toNat .none else l.getD i.toNat .none

/-- The trial function together with its invocation cost.  Modelled from
the spec: `ObjectRunner` lives in the absent `runner.py`; per spec §4.2
it invokes the trial function on the captured subject and arguments. -/
structure TrialFunc where
  f : PyVal → List PyVal → List (List Char × PyVal) → PyVal
  dur : ℚ

/-- `ObjectRunner(obj, func, args, kwargs)` as an Invocation Wrapper
(modelled from the spec, see `TrialFunc`). -/
def objectRunner (obj : PyVal) (tf : TrialFunc) (rid : ℕ) (args : List PyVal)
    (kwargs : List (List Char × PyVal)) : Runner :=
  { runnerId := rid, run := fun _ _ => tf.f obj args kwargs, dur := tf.dur, results := [] }

/-- The wrapper produced by `Coach.trial(obj_key)` applied to call-site
arguments: validate that the subject argument is present (raising
`ValueError` otherwise, before the trial function or subject is used),
then build the `ObjectRunner` and run it through `Coach.__call__`.  The
trailing `ℕ` again counts timer windows (zero on every error path). -/
def coachTrial (st : CoachState) (fuel : ℕ) (obj_key : TrialKey) (tf : TrialFunc) (rid : ℕ)
    (args : List PyVal) (kwargs : List (List Char × PyVal)) :
    Except CallErr (Result × Runner) × CoachState × ℕ :=
  match obj_key with
  | .pos i =>
    if (args.length : Int) ≤ i then (.error (.missingPositional i), st, 0)
    else coachCall st (objectRunner (pyIndex args i) tf rid args kwargs) fuel
  | .kw k =>
    match lookupKw k kwargs with
    | Option.none => (.error (.missingKeyword k), st, 0)
    | some obj => coachCall st (objectRunner obj tf rid args kwargs) fuel

/-! ## Theorems -/

/-- C1: `parse_argset` does NOT return `((), m)` for a bare mapping `m`:
because every `Mapping` is `Iterable` and the iterable test comes first,
a bare dict is returned as the positional part, `(m, {})`, and the
`Mapping` branch is unreachable; a value that is none of tuple-pair,
iterable or mapping (e.g. an int) does raise a `TypeError`. -/
theorem parse_argset_mapping_positional :
    parse_argset (.dict [(.str ['x'], .int 1)])
      = .ok (.dict [(.str ['x'], .int 1)], .dict []) ∧
    parse_argset (.dict [(.str ['x'], .int 1)])
      ≠ .ok (.tuple [], .dict [(.str ['x'], .int 1)]) ∧
    parse_argset (.int 5) = .error (.int 5) := by
  refine ⟨rfl, ?_, rfl⟩
  intro h
  simp [parse_argset, isIterable] at h

/-- C6: `Result` ordering is by mean per-call duration
(`total_time / n`), and division of two Outcomes is the ratio of their
mean durations; concretely, for means 2.0 and 4.0 seconds, `a < b` holds
and `b / a = 2`. -/
theorem result_ordering_division :
    (∀ a b : Result, 1 ≤ a.n → 1 ≤ b.n →
      ((resultLt a b = true) ↔
        a.total_time / (a.n : ℚ) < b.total_time / (b.n : ℚ)) ∧
      resultDiv a b = (a.total_time / (a.n : ℚ)) / (b.total_time / (b.n : ℚ))) ∧
    resultLt ⟨0, 0, 2, 1⟩ ⟨1, 1, 8, 2⟩ = true ∧
    resultDiv ⟨1, 1, 8, 2⟩ ⟨0, 0, 2, 1⟩ = 2 := by
  refine ⟨fun a b _ _ => ⟨by simp [resultLt, resultFloat], rfl⟩, ?_, ?_⟩
  · simp only [resultLt, resultFloat, decide_eq_true_eq]
    norm_num
  · simp only [resultDiv, resultFloat]
    norm_num

/-- C6 witness: the ordering criterion applied to the concrete Outcomes
with means 2.0 and 4.0. -/
theorem result_ordering_division_witness :
    (resultLt ⟨0, 0, 2, 1⟩ ⟨1, 1, 8, 2⟩ = true) ↔
      ((⟨0, 0, 2, 1⟩ : Result).total_time / (((⟨0, 0, 2, 1⟩ : Result).n : ℚ)) <
        (⟨1, 1, 8, 2⟩ : Result).total_time / (((⟨1, 1, 8, 2⟩ : Result).n : ℚ))) :=
  (result_ordering_division.1 ⟨0, 0, 2, 1⟩ ⟨1, 1, 8, 2⟩ (by norm_num) (by norm_num)).1

/-- C10: for every two distinct Outcome objects with equal mean
durations, `a <= b` and `b <= a` are both true while `a == b` is false
(equality is object identity, `Result` defining no `__eq__`), so the
ordering is not antisymmetric with respect to `==`; Python `in` — the
primitive behind the measured-set's deduplication and behind `bar`'s
`result not in comparisons` — separates them; and `bar`'s reference
cache treats them as distinct: on the tied pair `[a, b]` (positive
means), `a` gets no reference (skipped against itself by identity) while
`b` is annotated against `a` despite the equal value, and `b` then
replaces the previous-distinct slot. -/
theorem result_no_value_equality :
    ∀ a b : Result, a.rid ≠ b.rid → resultFloat a = resultFloat b →
      resultLe a b = true ∧ resultLe b a = true ∧ resultPyEq a b = false ∧ a ≠ b ∧
      resultMem b [a] = false ∧ resultMem a [b] = false ∧
      (0 < resultFloat a →
        barPass [a, b] = [[], [a]] ∧ barUpdate a Option.none b = some b) := by
  intro a b hid hmean
  have haa : resultPyEq a a = true := by
    simp [resultPyEq]
  have hab : resultPyEq a b = false := by
    simp only [resultPyEq, beq_eq_false_iff_ne]
    exact hid
  have hba : resultPyEq b a = false := by
    simp only [resultPyEq, beq_eq_false_iff_ne]
    exact fun h => hid h.symm
  refine ⟨?_, ?_, hab, ?_, ?_, ?_, ?_⟩
  · simp [resultLe, hmean]
  · simp [resultLe, hmean]
  · exact fun h => hid (congrArg Result.rid h)
  · simp [resultMem, hba]
  · simp [resultMem, hab]
  · intro hpos
    have h0 : decide (resultFloat a ≤ 0) = false := by
      simp [not_le, hpos]
    constructor
    · simp [barPass, barAnnotate, barRefs, barUpdate, haa, hab, hba, h0]
    · simp [barUpdate, hba]

/-- C10 witness: the concrete distinct pair with means 2/1 and 4/2. -/
theorem result_no_value_equality_witness :
    resultLe ⟨0, 0, 2, 1⟩ ⟨1, 1, 4, 2⟩ = true ∧
    resultLe ⟨1, 1, 4, 2⟩ ⟨0, 0, 2, 1⟩ = true ∧
    resultPyEq ⟨0, 0, 2, 1⟩ ⟨1, 1, 4, 2⟩ = false ∧
    resultMem ⟨1, 1, 4, 2⟩ [⟨0, 0, 2, 1⟩] = false ∧
    barPass [⟨0, 0, 2, 1⟩, ⟨1, 1, 4, 2⟩] = [[], [⟨0, 0, 2, 1⟩]] := by
  have h := result_no_value_equality ⟨0, 0, 2, 1⟩ ⟨1, 1, 4, 2⟩ (by decide)
    (by norm_num [resultFloat])
  exact ⟨h.1, h.2.1, h.2.2.1, h.2.2.2.2.1,
    (h.2.2.2.2.2.2 (by norm_num [resultFloat])).1⟩

/-- C8: any two numeric values whose absolute difference is at most the
configured absolute tolerance are judged sane (the `isclose` threshold
is a max including the absolute tolerance), and with the default
tolerance `tol = 1e-7`, `sane(1.0, 1.0 + tol/2)` is true while
`sane(1.0, 1.0 + 10*tol)` is false (the difference `1e-6` exceeds both
the absolute tolerance and the relative threshold). -/
theorem sane_numeric_tolerance :
    (∀ (tol : ℚ) (fuel : ℕ) (e a : PyVal), isNum e = true → isNum a = true →
        |toNum a - toNum e| ≤ tol → sane tol (fuel + 1) e a = some true) ∧
    sane sanity_tol_default 1 (.float 1)
        (.float (1 + sanity_tol_default / 2)) = some true ∧
    sane sanity_tol_default 1 (.float 1)
        (.float (1 + 10 * sanity_tol_default)) = some false := by
  have part1 : ∀ (tol : ℚ) (fuel : ℕ) (e a : PyVal), isNum e = true → isNum a = true →
      |toNum a - toNum e| ≤ tol → sane tol (fuel + 1) e a = some true := by
    intro tol fuel e a he ha h
    by_cases hpe : pyEq e a = true
    · simp [sane, hpe]
    · have hc : isclosePy pyRelTol tol (toNum a) (toNum e) = true := by
        simp only [isclosePy, decide_eq_true_eq]
        exact le_trans h (le_max_right _ _)
      simp [sane, hpe, he, ha, hc]
  refine ⟨part1, ?_, ?_⟩
  · apply part1 sanity_tol_default 0 (.float 1) (.float (1 + sanity_tol_default / 2)) rfl rfl
    simp only [toNum]
    rw [show (1 + sanity_tol_default / 2 : ℚ) - 1 = sanity_tol_default / 2 from by ring]
    rw [abs_of_nonneg (by norm_num [sanity_tol_default])]
    norm_num [sanity_tol_default]
  · have hpe : pyEq (PyVal.float 1) (PyVal.float (1 + 10 * sanity_tol_default)) = false := by
      simp only [pyEq]
      rw [beq_eq_false_iff_ne]
      norm_num [sanity_tol_default]
    have hc : isclosePy pyRelTol sanity_tol_default
        (1 + 10 * sanity_tol_default) 1 = false := by
      simp only [isclosePy, decide_eq_false_iff_not, not_le]
      rw [show (1 + 10 * sanity_tol_default : ℚ) - 1 = 10 * sanity_tol_default from by ring]
      rw [abs_of_nonneg (by norm_num [sanity_tol_default] : (0:ℚ) ≤ 10 * sanity_tol_default)]
      rw [abs_of_nonneg (by norm_num [sanity_tol_default] : (0:ℚ) ≤ 1 + 10 * sanity_tol_default)]
      rw [abs_one]
      rw [max_eq_left (by norm_num [sanity_tol_default] : (1:ℚ) ≤ 1 + 10 * sanity_tol_default)]
      apply max_lt
      · norm_num [pyRelTol, sanity_tol_default]
      · norm_num [sanity_tol_default]
    simp [sane, hpe, isNum, toNum, hc, isMapping, isIterable]

/-- C8 witness: the tolerance bound applied to the concrete numeric pair
`2` and `3` with tolerance `1`. -/
theorem sane_numeric_tolerance_witness :
    sane 1 1 (.int 2) (.int 3) = some true :=
  sane_numeric_tolerance.1 1 0 (.int 2) (.int 3) rfl rfl
    (by norm_num [toNum])

/-- Auxiliary to C7: comparing the one-character strings "b" and "c"
never terminates — a one-character string's sole element under
iteration is the string itself, so `sane` recurses on the identical
pair of arguments at every depth. -/
theorem sane_char_pair_none :
    ∀ fuel, sane sanity_tol_default fuel (.str ['b']) (.str ['c']) = Option.none := by
  intro fuel
  induction fuel with
  | zero => simp [sane]
  | succ n ih =>
    have hpe : pyEq (PyVal.str ['b']) (PyVal.str ['c']) = false := by
      simp only [pyEq]
      decide
    have hl : saneList sanity_tol_default n [PyVal.str ['b']] [PyVal.str ['c']]
        = Option.none := by
      simp [saneList, ih]
    simp [sane, hpe, isNum, isMapping, isIterable, sameKind, pyKind, pyElems, hl]

/-- C7: the claimed "any element mismatch yields false" fails on string
inputs: `sane("ab", "ac")` never returns at any recursion depth (the
Python call dies with `RecursionError`), in particular it does not
return false. -/
theorem sane_string_mismatch_diverges :
    saneDiverges sanity_tol_default (.str ['a', 'b']) (.str ['a', 'c']) ∧
    sane sanity_tol_default 1000 (.str ['a', 'b']) (.str ['a', 'c']) ≠ some false := by
  have main : ∀ fuel,
      sane sanity_tol_default fuel (.str ['a', 'b']) (.str ['a', 'c']) = Option.none := by
    intro fuel
    match fuel with
    | 0 => simp [sane]
    | f + 1 =>
      have hpe : pyEq (PyVal.str ['a', 'b']) (PyVal.str ['a', 'c']) = false := by
        simp only [pyEq]
        decide
      have hl : saneList sanity_tol_default f
          [PyVal.str ['a'], PyVal.str ['b']] [PyVal.str ['a'], PyVal.str ['c']]
          = Option.none := by
        match f with
        | 0 => simp [saneList, sane]
        | g + 1 =>
          have h1 : sane sanity_tol_default (g + 1) (PyVal.str ['a']) (PyVal.str ['a'])
              = some true := by
            have : pyEq (PyVal.str ['a']) (PyVal.str ['a']) = true := by
              simp only [pyEq]
              decide
            simp [sane, this]
          simp [saneList, h1, sane_char_pair_none (g + 1)]
      simp [sane, hpe, isNum, isMapping, isIterable, sameKind, pyKind, pyElems, hl]
  exact ⟨main, by simp [main 1000]⟩

/-- C2: if a sanity fixture fails (first conjunct: the first fixture
whose actual value is not sane-equal to the expected one turns the
sanity loop into a `ValueError` carrying expected and actual), then
`Coach.__call__` propagates that error with the Orchestrator state
untouched — the measured-set unchanged — and zero timer windows opened:
the Clock Accumulator is only created after the sanity loop succeeds. -/
theorem sanity_failure_precludes_timing :
    (∀ (tol : ℚ) (fuel : ℕ) (run : PyVal → PyVal → PyVal) (sa expected : PyVal)
        (rest : List (PyVal × PyVal)) (a k : PyVal),
        parse_argset sa = .ok (a, k) →
        sane tol fuel expected (run a k) = some false →
        runSanity tol fuel run ((sa, expected) :: rest)
          = .error (.sanityFail expected (run a k))) ∧
    (∀ (st : CoachState) (r : Runner) (fuel : ℕ) (e : CallErr),
        runSanity st.sanity_tol fuel r.run st.sanity_argsets = .error e →
        coachCall st r fuel = (.error e, st, 0)) := by
  constructor
  · intro tol fuel run sa expected rest a k hp hs
    simp [runSanity, hp, hs]
  · intro st r fuel e h
    simp [coachCall, h]

/-- C2 witness: a coach with the single fixture `((), 'a')` and a
candidate returning `2` fails sanity and is never timed. -/
theorem sanity_failure_precludes_timing_witness :
    runSanity sanity_tol_default 1 (fun _ _ => PyVal.int 2) [(.tuple [], .str ['a'])]
        = .error (.sanityFail (.str ['a']) (.int 2)) ∧
    coachCall ⟨[(.tuple [], .str ['a'])], sanity_tol_default, [], 0, 0⟩
        ⟨0, fun _ _ => PyVal.int 2, 1, []⟩ 1
      = (.error (.sanityFail (.str ['a']) (.int 2)),
         ⟨[(.tuple [], .str ['a'])], sanity_tol_default, [], 0, 0⟩, 0) := by
  have hs : sane sanity_tol_default 1 (PyVal.str ['a']) (PyVal.int 2) = some false := by
    have hpe : pyEq (PyVal.str ['a']) (PyVal.int 2) = false := by
      simp [pyEq]
    simp [sane, hpe, isNum, isMapping, isIterable]
  have h1 := sanity_failure_precludes_timing.1 sanity_tol_default 1
    (fun _ _ => PyVal.int 2) (.tuple []) (.str ['a']) [] (.tuple []) (.dict []) rfl hs
  exact ⟨h1, sanity_failure_precludes_timing.2 _ _ 1 _ h1⟩

/-- C9: a trial wrapper with a positional subject index `i` called with
at most `i` positional arguments, or with a keyword subject `k` called
without that keyword, raises the validation `ValueError` with the state
untouched and zero timer windows — for every trial function, so the
trial function is never invoked and no subject is touched. -/
theorem trial_missing_subject_validation :
    (∀ (st : CoachState) (fuel : ℕ) (i : Int) (tf : TrialFunc) (rid : ℕ)
        (args : List PyVal) (kwargs : List (List Char × PyVal)),
        (args.length : Int) ≤ i →
        coachTrial st fuel (.pos i) tf rid args kwargs
          = (.error (.missingPositional i), st, 0)) ∧
    (∀ (st : CoachState) (fuel : ℕ) (k : List Char) (tf : TrialFunc) (rid : ℕ)
        (args : List PyVal) (kwargs : List (List Char × PyVal)),
        lookupKw k kwargs = Option.none →
        coachTrial st fuel (.kw k) tf rid args kwargs
          = (.error (.missingKeyword k), st, 0)) := by
  constructor
  · intro st fuel i tf rid args kwargs h
    simp only [coachTrial]
    rw [if_pos h]
  · intro st fuel k tf rid args kwargs h
    simp only [coachTrial, h]

/-- C9 witness: a trial declared with subject index 0 called with no
positional arguments, and one declared with subject keyword "x" called
without it, both fail validation without measuring. -/
theorem trial_missing_subject_validation_witness :
    coachTrial ⟨[], sanity_tol_default, [], 0, 0⟩ 1 (.pos 0)
        ⟨fun _ _ _ => PyVal.none, 1⟩ 0 [] []
      = (.error (.missingPositional 0), ⟨[], sanity_tol_default, [], 0, 0⟩, 0) ∧
    coachTrial ⟨[], sanity_tol_default, [], 0, 0⟩ 1 (.kw ['x'])
        ⟨fun _ _ _ => PyVal.none, 1⟩ 0 [] []
      = (.error (.missingKeyword ['x']), ⟨[], sanity_tol_default, [], 0, 0⟩, 0) :=
  ⟨trial_missing_subject_validation.1 _ 1 0 _ 0 [] [] (by norm_num),
   trial_missing_subject_validation.2 _ 1 ['x'] _ 0 [] [] rfl⟩

/-- Auxiliary to C4: if the time-boxed loop finishes, the final total is
the start total plus one duration per completed cycle, the total has
reached the limit, and every completed cycle started while the running
total was still strictly below the limit. -/
theorem timeLimitRun_spec (limit d : ℚ) :
    ∀ (fuel : ℕ) (t : ℚ) (k : ℕ) (T : ℚ) (N : ℕ),
      timeLimitRun limit d fuel t k = some (T, N) →
      T = t + ((N : ℚ) - (k : ℚ)) * d ∧ limit ≤ T ∧
      ∀ j, k ≤ j → j < N → t + ((j : ℚ) - (k : ℚ)) * d < limit := by
  intro fuel
  induction fuel with
  | zero =>
    intro t k T N h
    simp [timeLimitRun] at h
  | succ n ih =>
    intro t k T N h
    simp only [timeLimitRun] at h
    by_cases hc : t < limit
    · rw [if_pos hc] at h
      obtain ⟨h1, h2, h3⟩ := ih (t + d) (k + 1) T N h
      refine ⟨by rw [h1]; push_cast; ring, h2, ?_⟩
      intro j hj1 hj2
      rcases eq_or_lt_of_le hj1 with rfl | hj
      · simpa using hc
      · have hj' : k + 1 ≤ j := hj
        have := h3 j hj' hj2
        calc t + ((j : ℚ) - (k : ℚ)) * d
            = (t + d) + ((j : ℚ) - ((k + 1 : ℕ) : ℚ)) * d := by push_cast; ring
          _ < limit := this
    · rw [if_neg hc] at h
      have h' := Option.some.inj h
      cases h'
      refine ⟨by ring, le_of_not_lt hc, ?_⟩
      intro j hj1 hj2
      exact absurd hj2 (by omega)

/-- C4: whenever the time-boxed run finishes, the resulting Outcome's
total is `n * d`, the accumulated total has reached the budget
(`limit ≤ total`, hence `limit ≤ n * d`), and every repetition cycle was
started only while the running total was strictly below the budget. -/
theorem time_limit_budget_met :
    ∀ (limit d : ℚ) (fuel rid nid : ℕ) (res : Result),
      timeLimitCoachCall limit d fuel rid nid = some res →
      res.total_time = (res.n : ℚ) * d ∧ limit ≤ res.total_time ∧
      limit ≤ (res.n : ℚ) * d ∧
      ∀ k, k < res.n → (k : ℚ) * d < limit := by
  intro limit d fuel rid nid res h
  simp only [timeLimitCoachCall, Option.map_eq_some'] at h
  obtain ⟨⟨T, N⟩, hrun, hres⟩ := h
  obtain ⟨h1, h2, h3⟩ := timeLimitRun_spec limit d fuel 0 0 T N hrun
  subst hres
  have hT : T = (N : ℚ) * d := by rw [h1]; ring
  refine ⟨hT, h2, hT ▸ h2, ?_⟩
  intro k hk
  have := h3 k (Nat.zero_le k) hk
  calc (k : ℚ) * d = 0 + ((k : ℚ) - ((0 : ℕ) : ℚ)) * d := by push_cast; ring
    _ < limit := this

/-- C4 witness: budget 1, per-call duration 1 — the loop runs exactly
one cycle and the budget is met: `1 ≤ n * d`. -/
theorem time_limit_budget_met_witness :
    (1 : ℚ) ≤ (((⟨0, 0, 1, 1⟩ : Result).n : ℚ)) * 1 := by
  have h : timeLimitCoachCall 1 1 2 0 0 = some ⟨0, 0, 1, 1⟩ := by
    norm_num [timeLimitCoachCall, timeLimitRun]
  exact (time_limit_budget_met 1 1 2 0 0 ⟨0, 0, 1, 1⟩ h).2.2.1

/-- Auxiliary to C5: a successful normalization pass produces one
canonical pair per configured Argument Set. -/
theorem argsetsPass_length :
    ∀ (l : List PyVal) (ps : List (PyVal × PyVal)),
      argsetsPass l = .ok ps → ps.length = l.length := by
  intro l
  induction l with
  | nil =>
    intro ps h
    simp [argsetsPass] at h
    simp [← h]
  | cons a rest ih =>
    intro ps h
    simp only [argsetsPass] at h
    cases hp : parse_argset a with
    | error e => rw [hp] at h; exact absurd h (by simp)
    | ok p =>
      rw [hp] at h
      cases hr : argsetsPass rest with
      | error e => rw [hr] at h; exact absurd h (by simp)
      | ok ps2 =>
        rw [hr] at h
        have := ih ps2 hr
        cases h
        simp [this]

/-- Auxiliary to C5: the fixed-sweep generator yields the normalized
pass, in order, repeated once per repetition. -/
theorem argCoachYields_replicate :
    ∀ (reps : ℕ) (l : List PyVal) (ps : List (PyVal × PyVal)),
      argsetsPass l = .ok ps →
      argCoachYields reps l = .ok (List.join (List.replicate reps ps)) := by
  intro reps l ps h
  induction reps with
  | zero => simp [argCoachYields]
  | succ n ih => simp [argCoachYields, h, ih, List.replicate_succ]

/-- C5: with repeat count `R` over `K` normalizable Argument Sets, the
sweep yields exactly the normalized pass repeated `R` times in order,
and the resulting Outcome's call count is `R * K` (with total time
`R * K * d` for per-call duration `d`). -/
theorem arg_coach_call_count :
    ∀ (reps : ℕ) (l : List PyVal) (ps : List (PyVal × PyVal)) (d : ℚ) (rid nid : ℕ),
      argsetsPass l = .ok ps →
      argCoachYields reps l = .ok (List.join (List.replicate reps ps)) ∧
      argCoachCall reps l d rid nid
        = .ok ⟨nid, rid, ((reps * l.length : ℕ) : ℚ) * d, reps * l.length⟩ := by
  intro reps l ps d rid nid h
  have hy := argCoachYields_replicate reps l ps h
  have hlen : (List.join (List.replicate reps ps)).length = reps * l.length := by
    simp [List.length_join, List.map_replicate, List.sum_replicate, smul_eq_mul,
      argsetsPass_length l ps h]
  refine ⟨hy, ?_⟩
  simp [argCoachCall, hy, hlen]

/-- C5 witness: two repetitions over a single one-element Argument Set
sequence give exactly the pass repeated twice and a call count of 2. -/
theorem arg_coach_call_count_witness :
    argCoachYields 2 [.tuple [.int 3]]
        = .ok (List.join (List.replicate 2 [(.tuple [.int 3], .dict [])])) ∧
    argCoachCall 2 [.tuple [.int 3]] 1 0 0
      = .ok ⟨0, 0, ((2 * 1 : ℕ) : ℚ) * 1, 2 * 1⟩ :=
  arg_coach_call_count 2 [.tuple [.int 3]] [(.tuple [.int 3], .dict [])] 1 0 0 rfl

/-- The complement relation that models Python's stable sort over
`__lt__` is exactly mean-duration `<=`. -/
theorem resultLt_not (a b : Result) :
    ((! resultLt b a) = true) ↔ resultFloat a ≤ resultFloat b := by
  simp [resultLt, not_lt]

/-- Auxiliary to C3: resolving a list of Outcome arguments is the
identity and leaves the Orchestrator state unchanged. -/
theorem resolveAll_results :
    ∀ (fuel : ℕ) (st : CoachState) (l : List Result),
      resolveAll fuel st (l.map CompareArg.result) = .ok (l, st) := by
  intro fuel st l
  induction l with
  | nil => simp [resolveAll]
  | cons x xs ih => simp [resolveAll, resolveOne, ih]

/-- C3: `compare()` with no arguments returns exactly the measured-set
(a permutation — the Python set iterates in arbitrary order — with each
Outcome kept), sorted ascending by mean per-call duration; an explicit
Outcome argument is used as-is with no state change; a wrapper carrying
a cached Outcome for this Orchestrator yields the cached Outcome with no
state change (no re-measurement); a wrapper with no cached Outcome is
run through the full `Coach.__call__` pipeline. -/
theorem compare_pipeline_spec :
    (∀ (fuel : ℕ) (st : CoachState),
      ∃ l, coachCompare fuel st [] = .ok (l, st) ∧ l.Perm st.measured ∧
        l.Pairwise fun a b => resultFloat a ≤ resultFloat b) ∧
    (∀ (fuel : ℕ) (st : CoachState) (r : Result),
      coachCompare fuel st [.result r] = .ok ([r], st)) ∧
    (∀ (fuel : ℕ) (st : CoachState) (rn : Runner) (res : Result),
      lookupResult st.coachId rn.results = some res →
      coachCompare fuel st [.runner rn] = .ok ([res], st)) ∧
    (∀ (fuel : ℕ) (st : CoachState) (rn : Runner) (res : Result) (r2 : Runner)
        (st2 : CoachState) (w : ℕ),
      lookupResult st.coachId rn.results = Option.none →
      coachCall st rn fuel = (.ok (res, r2), st2, w) →
      coachCompare fuel st [.runner rn] = .ok ([res], st2)) := by
  have htrans : ∀ a b c : Result,
      (! resultLt b a) → (! resultLt c b) → (! resultLt c a) := by
    intro a b c hab hbc
    rw [resultLt_not] at hab hbc ⊢
    exact le_trans hab hbc
  have htotal : ∀ a b : Result, (! resultLt b a) || (! resultLt a b) := by
    intro a b
    rcases le_total (resultFloat a) (resultFloat b) with h | h
    · rw [Bool.or_eq_true, resultLt_not, resultLt_not]
      exact Or.inl h
    · rw [Bool.or_eq_true, resultLt_not, resultLt_not]
      exact Or.inr h
  refine ⟨?_, ?_, ?_, ?_⟩
  · intro fuel st
    refine ⟨st.measured.mergeSort fun a b => ! resultLt b a, ?_, ?_, ?_⟩
    · simp [coachCompare, resolveAll_results]
    · exact List.mergeSort_perm st.measured _
    · exact (List.sorted_mergeSort htrans htotal st.measured).imp
        fun h => (resultLt_not _ _).mp h
  · intro fuel st r
    simp [coachCompare, resolveAll, resolveOne]
  · intro fuel st rn res h
    simp [coachCompare, resolveAll, resolveOne, h]
  · intro fuel st rn res r2 st2 w h hcall
    simp [coachCompare, resolveAll, resolveOne, h, hcall]

/-- C3 witness: under an Orchestrator with identity 7, a wrapper caching
an Outcome for identity 7 is reused without re-measurement, and a
wrapper with an empty cache goes through the measurement pipeline,
growing the measured-set. -/
theorem compare_pipeline_spec_witness :
    coachCompare 1 ⟨[], sanity_tol_default, [], 7, 0⟩
        [.runner ⟨3, fun _ _ => PyVal.none, 1, [(7, ⟨5, 3, 2, 1⟩)]⟩]
      = .ok ([⟨5, 3, 2, 1⟩], ⟨[], sanity_tol_default, [], 7, 0⟩) ∧
    coachCompare 1 ⟨[], sanity_tol_default, [], 7, 0⟩
        [.runner ⟨3, fun _ _ => PyVal.none, 1, []⟩]
      = .ok ([⟨0, 3, 1, 1⟩], ⟨[], sanity_tol_default, [⟨0, 3, 1, 1⟩], 7, 1⟩) :=
  ⟨compare_pipeline_spec.2.2.1 1 ⟨[], sanity_tol_default, [], 7, 0⟩
      ⟨3, fun _ _ => PyVal.none, 1, [(7, ⟨5, 3, 2, 1⟩)]⟩ ⟨5, 3, 2, 1⟩ rfl,
   compare_pipeline_spec.2.2.2 1 ⟨[], sanity_tol_default, [], 7, 0⟩
      ⟨3, fun _ _ => PyVal.none, 1, []⟩ ⟨0, 3, 1, 1⟩
      ⟨3, fun _ _ => PyVal.none, 1, [(7, ⟨0, 3, 1, 1⟩)]⟩
      ⟨[], sanity_tol_default, [⟨0, 3, 1, 1⟩], 7, 1⟩ 1 rfl rfl⟩
